import Mathlib

/-!
Verification development for the SQL + Policy RAG agent.

The repository ships a React UI (`ui/src/App.jsx`, and a second extended
copy of the same component file) and a README describing the backend
pipeline (router, SQL self-correction loop, PII guardrail, orchestrator).
The UI code is embedded directly from the source; the backend pipeline is
modelled from the specification where the source is not part of the
repository snapshot.
-/

/-- A JavaScript value, as handled by the UI rendering code: `null`,
`undefined`, booleans, numbers (modelled as integers), strings, arrays and
plain objects (ordered field lists). -/
inductive JsValue where
  | vnull : JsValue
  | vundef : JsValue
  | vbool : Bool → JsValue
  | vnum : Int → JsValue
  | vstr : String → JsValue
  | varr : List JsValue → JsValue
  | vobj : List (String × JsValue) → JsValue

namespace JsValue

/-- Strict equality test `value === null`. -/
def strictNull : JsValue → Bool
  | vnull => true
  | _ => false

/-- Strict equality test `value === undefined`. -/
def strictUndef : JsValue → Bool
  | vundef => true
  | _ => false

/-- The JavaScript `typeof` operator on our value domain (note
`typeof null == "object"` and arrays are objects). -/
def jsTypeof : JsValue → String
  | vnull => "object"
  | vundef => "undefined"
  | vbool _ => "boolean"
  | vnum _ => "number"
  | vstr _ => "string"
  | varr _ => "object"
  | vobj _ => "object"

/-- The `Array.isArray` test. -/
def isArray : JsValue → Bool
  | varr _ => true
  | _ => false

/-- JavaScript truthiness of a value. -/
def jsTruthy : JsValue → Bool
  | vnull => false
  | vundef => false
  | vbool b => b
  | vnum n => n != 0
  | vstr s => s ≠ ""
  | varr _ => true
  | vobj _ => true

/-- First binding of a field name in an object field list. -/
def lookupField : List (String × JsValue) → String → Option JsValue
  | [], _ => none
  | (k, v) :: rest, name => if k = name then some v else lookupField rest name

mutual

/-- Model of JavaScript `String(value)` on our value domain. Arrays
stringify as their comma-joined elements, with `null`/`undefined`
elements contributing the empty string; plain objects stringify as
`[object Object]`. -/
def jsString : JsValue → String
  | vnull => "null"
  | vundef => "undefined"
  | vbool true => "true"
  | vbool false => "false"
  | vnum n => toString n
  | vstr s => s
  | varr xs => String.intercalate "," (jsStringElems xs)
  | vobj _ => "[object Object]"

/-- Elementwise stringification used by array `toString`. -/
def jsStringElems : List JsValue → List String
  | [] => []
  | vnull :: rest => "" :: jsStringElems rest
  | vundef :: rest => "" :: jsStringElems rest
  | v :: rest => jsString v :: jsStringElems rest

end

/-- JSON string escaping for quotes and backslashes (a model of the
escaping performed by `JSON.stringify` on the characters our values use). -/
def jsonEscape (s : String) : String :=
  String.join (s.toList.map fun c =>
    if c = '"' then "\\\"" else if c = '\\' then "\\\\" else String.singleton c)

mutual

/-- Model of the JavaScript builtin `JSON.stringify` on one value:
`none` when the value is omitted from output (`undefined`). The
indentation argument of the builtin is not modelled; only the serialized
structure is. -/
def jsonStringifyCore : JsValue → Option String
  | vnull => some "null"
  | vundef => none
  | vbool true => some "true"
  | vbool false => some "false"
  | vnum n => some (toString n)
  | vstr s => some ("\"" ++ jsonEscape s ++ "\"")
  | varr xs => some ("[" ++ String.intercalate "," (jsonArrElems xs) ++ "]")
  | vobj fs => some ("\x7b" ++ String.intercalate "," (jsonObjFields fs) ++ "\x7d")

/-- Array elements: `undefined` serializes as `null` inside arrays. -/
def jsonArrElems : List JsValue → List String
  | [] => []
  | v :: rest => ((jsonStringifyCore v).getD "null") :: jsonArrElems rest

/-- Object fields: fields whose value is `undefined` are omitted. -/
def jsonObjFields : List (String × JsValue) → List String
  | [] => []
  | (k, v) :: rest =>
    match jsonStringifyCore v with
    | none => jsonObjFields rest
    | some s => ("\"" ++ jsonEscape k ++ "\":" ++ s) :: jsonObjFields rest

end

/-- Top-level `JSON.stringify(value, null, 2)` as called by the UI: a
top-level `undefined` yields the string `undefined` when coerced for
display. -/
def jsonStringify (v : JsValue) : String :=
  (jsonStringifyCore v).getD "undefined"

end JsValue

open JsValue

/-- Function `renderValue` from `ui/src/App.jsx` (lines 171–176): em-dash for
`null`/`undefined`, JSON stringification for arrays and objects,
`String(value)` otherwise. -/
def renderValue (value : JsValue) : String :=
  if value.strictNull || value.strictUndef then "—"
  else if value.isArray then jsonStringify value
  else if value.jsTypeof = "object" then jsonStringify value
  else jsString value

/-- Function `renderValue` from the second copy of the component (the data-explorer
variant, lines 320–325): textually identical to the first copy. -/
def renderValueExplorer (value : JsValue) : String :=
  if value.strictNull || value.strictUndef then "—"
  else if value.isArray then jsonStringify value
  else if value.jsTypeof = "object" then jsonStringify value
  else jsString value

/-- Property read `base["name"]`: `none` models the TypeError thrown when
the base is `null` or `undefined`; on other primitives and on missing
object properties the read yields `undefined`. -/
def jsIndex : JsValue → String → Option JsValue
  | vnull, _ => none
  | vundef, _ => none
  | vobj fs, name => some ((lookupField fs name).getD vundef)
  | varr xs, name => if name = "length" then some (vnum xs.length) else some vundef
  | vstr s, name => if name = "length" then some (vnum s.length) else some vundef
  | _, _ => some vundef

/-- The membership test `"name" in base`: `none` models the TypeError
thrown when the base is not an object. -/
def jsHasProp : JsValue → String → Option Bool
  | vobj fs, name => some (lookupField fs name).isSome
  | varr _, name => some (name = "length")
  | _, _ => none

/-- Strict equality test `value === 0`. -/
def strictEqZero : JsValue → Bool
  | vnum n => n == 0
  | _ => false

/-- The JavaScript `a || b` operator. -/
def jsOr (a b : JsValue) : JsValue := if a.jsTruthy then a else b

/-- What the `ResultTable` component renders: either the fixed
"No rows returned." placeholder or a table with a header row (one cell
per column name) and a body of stringified cells. -/
inductive TableRender where
  | placeholder : TableRender
  | table : List JsValue → List (List String) → TableRender

/-- One table cell `String(row[col])`; `none` when the cell access throws
(row is `null`/`undefined`). Property keys are coerced to strings as in
JavaScript. -/
def renderCell (row : JsValue) (col : JsValue) : Option String :=
  (jsIndex row (jsString col)).map jsString

/-- Apply a possibly-throwing rendering to every element; `none` as soon
as one element throws (models `.map` over a callback that may throw). -/
def mapOrThrow (f : α → Option β) : List α → Option (List β)
  | [] => some []
  | a :: rest =>
    match f a, mapOrThrow f rest with
    | some b, some bs => some (b :: bs)
    | _, _ => none

/-- The `ResultTable` component (`ui/src/App.jsx` lines 122–148, and the
identical copy in the explorer variant, lines 271–298): renders the
placeholder when `!result.rows || result.rows.length === 0`, otherwise a
header from `result.columns` and one row of cells `String(row[col])` per
element of `result.rows`, cells ordered by `result.columns`. `none`
models a thrown TypeError (e.g. `.map` on a non-array). -/
def ResultTable (result : JsValue) : Option TableRender :=
  match jsIndex result "rows" with
  | none => none
  | some rows =>
    if !rows.jsTruthy then some TableRender.placeholder
    else if strictEqZero ((jsIndex rows "length").getD vundef) then
      some TableRender.placeholder
    else
      match jsIndex result "columns", rows with
      | some (varr cs), varr rs =>
        (mapOrThrow (fun row => mapOrThrow (fun c => renderCell row c) cs) rs).map
          (fun body => TableRender.table cs body)
      | _, _ => none

/-- What the response panel of the `App` component shows. -/
inductive RenderedResponse where
  | empty : RenderedResponse
  | shown : Option JsValue → Option (JsValue ⊕ TableRender) → RenderedResponse

/-- The response-rendering block of `App` (`ui/src/App.jsx` lines 77–97):
shows the message when `"message" in response`, and when
`"result" in response && response.result` either the error text
(`"error" in response.result`) or the `ResultTable`. `none` models a
thrown TypeError. -/
def renderResponse (response : JsValue) : Option RenderedResponse :=
  if !response.jsTruthy then some RenderedResponse.empty
  else
    match jsHasProp response "message" with
    | none => none
    | some hasMsg =>
      let msg := if hasMsg then some ((jsIndex response "message").getD vundef) else none
      match jsHasProp response "result" with
      | none => none
      | some hasRes =>
        let result := (jsIndex response "result").getD vundef
        if hasRes && result.jsTruthy then
          match jsHasProp result "error" with
          | none => none
          | some hasErr =>
            if hasErr then
              some (RenderedResponse.shown msg (some (Sum.inl ((jsIndex result "error").getD vundef))))
            else
              match ResultTable result with
              | none => none
              | some t => some (RenderedResponse.shown msg (some (Sum.inr t)))
        else some (RenderedResponse.shown msg none)

/-- JavaScript whitespace characters relevant to `String.prototype.trim`
on the ASCII range. -/
def isJsWhitespace (c : Char) : Bool :=
  c = ' ' || c = '\t' || c = '\n' || c = '\r' || c = '\x0b' || c = '\x0c'

/-- Model of `query.trim()`. -/
def jsTrim (s : String) : String :=
  String.mk (((s.toList.dropWhile isJsWhitespace).reverse.dropWhile isJsWhitespace).reverse)

/-- The component state touched by `runQuery`: the `response`, `trace`,
`error` and `loading` React state cells. -/
structure AppState where
  response : JsValue
  trace : JsValue
  error : String
  loading : Bool

/-- Outcome of the `fetch` to `/query`: either a settled HTTP response
(with `res.ok`, `res.status` and the parsed JSON body) or a rejection
(network error / JSON parse error) carrying the error message. -/
inductive FetchOutcome where
  | success : Bool → Nat → JsValue → FetchOutcome
  | failure : String → FetchOutcome

/-- Handler `runQuery` (`ui/src/App.jsx` lines 13–37, identical in the explorer
variant lines 20–44): returns early when `!query.trim()`; otherwise
clears `error`/`response`/`trace`, performs the POST to `/query`, and
fills the state from the outcome, resetting `loading` in `finally`. The
second component is the body of the network request issued (`none` when
no request was made). -/
def runQuery (query : String) (st : AppState) (fetch : FetchOutcome) :
    AppState × Option String :=
  if jsTrim query = "" then (st, none)
  else
    let st1 : AppState :=
      { st with loading := true, error := "", response := vnull, trace := varr [] }
    let st2 : AppState :=
      match fetch with
      | FetchOutcome.success ok status data =>
        if !ok then { st1 with error := "Request failed: " ++ toString status }
        else
          match jsIndex data "response", jsIndex data "trace" with
          | some r, some t => { st1 with response := r, trace := jsOr t (varr []) }
          | _, _ => { st1 with error := "TypeError" }
      | FetchOutcome.failure msg =>
        { st1 with error := if msg = "" then "Something went wrong" else msg }
    ({ st2 with loading := false }, some query)

/-!
## Backend pipeline

The Python backend (`app/agent.py`, `app/router.py`, `app/sql_executor.py`,
`app/pii.py`, `app/docs_loader.py`) is described by the README and the
specification but its source is not part of this snapshot, so every
definition below is modelled from the specification text.
-/

namespace Pipeline

/-- Boolean substring test: does `s` contain `pat`? -/
def containsSub (s pat : String) : Bool :=
  s.toList.tails.any (fun t => pat.toList.isPrefixOf t)

/-- Lower-casing by character (kept computable down to the kernel). -/
def lowerString (s : String) : String :=
  String.mk (s.toList.map Char.toLower)

/-- Case-insensitive substring test. -/
def containsCI (s pat : String) : Bool :=
  containsSub (lowerString s) (lowerString pat)

/-- Modelled from the spec: the fixed vocabulary of policy-indicative
terms scanned by the router's deterministic fast-path. -/
def policyTerms : List String := ["rule", "policy", "allowed", "compliance"]

/-- The routing decision record of the data model:
`{requiresSql, requiresPolicy, source: "rule"|"model", rationale}`. -/
structure RoutingDecision where
  requiresSql : Bool
  requiresPolicy : Bool
  source : String
  rationale : String

/-- Case-insensitive truthy tokens accepted from the classifier. -/
def truthyTokens : List String := ["yes", "y", "true", "1"]

/-- Case-insensitive falsy tokens accepted from the classifier. -/
def falsyTokens : List String := ["no", "n", "false", "0"]

/-- Modelled from the spec: permissive parsing of one classifier answer
(`app/router.py` is absent). `none` models a failed inference call;
unparseable or failed responses default to `true`. -/
def parseAnswer : Option String → Bool
  | none => true
  | some s =>
    let t := lowerString (jsTrim s)
    if truthyTokens.contains t then true
    else if falsyTokens.contains t then false
    else true

/-- Is the classifier answer present and a recognized yes/no token? -/
def answerParseable : Option String → Bool
  | none => false
  | some s =>
    truthyTokens.contains (lowerString (jsTrim s))
      || falsyTokens.contains (lowerString (jsTrim s))

/-- The rationale recorded when an answer was missing or unparseable. -/
def fallbackRationale : String :=
  "classifier unavailable or unparseable; defaulting to conservative routing"

/-- Modelled from the spec: `route(query) -> RoutingDecision`
(`app/router.py` is absent). Deterministic fast-path on the
policy-term vocabulary, then classifier answers for the remaining
dimensions, parsed permissively with a conservative `true` default; the
classifier answers for the two dimensions are passed in as oracles. -/
def route (query : String) (sqlAnswer policyAnswer : Option String) :
    RoutingDecision :=
  let ruleHit := policyTerms.any (fun t => containsCI query t)
  let requiresSql := parseAnswer sqlAnswer
  if ruleHit then
    { requiresSql := requiresSql, requiresPolicy := true, source := "rule",
      rationale := "policy-indicative term found in query" }
  else
    { requiresSql := requiresSql, requiresPolicy := parseAnswer policyAnswer,
      source := "model",
      rationale :=
        if answerParseable sqlAnswer && answerParseable policyAnswer then
          "model classification"
        else fallbackRationale }

/-- The sensitive-field terms of the PII guardrail (README: email, phone,
address). -/
def sensitiveTerms : List String := ["email", "phone", "address"]

/-- Result of screening an incoming request. -/
structure ScreenResult where
  allowed : Bool
  reason : Option String

/-- Modelled from the spec: `screenRequest` (`app/pii.py` is absent) —
rejects queries that ask for raw sensitive fields, with a safe,
non-leaking reason string. -/
def screenRequest (query : String) : ScreenResult :=
  if sensitiveTerms.any (fun t => containsCI query t) then
    { allowed := false,
      reason := some "Request rejected: it asks for sensitive personal data." }
  else { allowed := true, reason := none }

/-- The fixed redaction token written into masked cells. -/
def redactionToken : String := "***MASKED***"

/-- Does a column name match a sensitive-field pattern? -/
def isSensitiveColumn (name : String) : Bool :=
  sensitiveTerms.any (fun t => containsCI name t)

/-- The `ExecutionResult` data model: `{columns, rows}` (rows are name→value mappings)
or `{error}`. -/
inductive ExecResult where
  | ok : List String → List (List (String × String)) → ExecResult
  | error : String → ExecResult

/-- Mask one row: every value under a sensitive column name becomes the
redaction token, all other entries pass through unchanged. -/
def maskRow (row : List (String × String)) : List (String × String) :=
  row.map (fun kv => (kv.1, if isSensitiveColumn kv.1 then redactionToken else kv.2))

/-- Modelled from the spec: `mask(result) -> MaskedResult`
(`app/pii.py` is absent) — total and deterministic; error results pass
through untouched. -/
def mask : ExecResult → ExecResult
  | ExecResult.ok cols rows => ExecResult.ok cols (rows.map maskRow)
  | ExecResult.error e => ExecResult.error e

/-- One attempt of the SQL correction loop. -/
structure SqlAttempt where
  attemptNumber : Nat
  statementText : String
  validationError : Option String
  executionError : Option String

/-- Keywords whose presence makes a statement non-read-only. -/
def writeKeywords : List String :=
  ["INSERT", "UPDATE", "DELETE", "DROP", "ALTER", "ATTACH"]

/-- Modelled from the spec: static validation (`app/sql_executor.py` is
absent) — rejects any statement that is not a single read-only query:
write keywords or a statement separator. -/
def validate (stmt : String) : Option String :=
  if writeKeywords.any (fun k => containsCI stmt k) then
    some "validation failed: statement is not read-only"
  else if containsSub stmt ";" then
    some "validation failed: multiple statements are not allowed"
  else none

/-- Record one more executed statement in a loop outcome. -/
def consExec (stmt : String)
    (out : ExecResult × List SqlAttempt × List String) :
    ExecResult × List SqlAttempt × List String :=
  (out.1, out.2.1, stmt :: out.2.2)

/-- Modelled from the spec: the Generate→Validate→Execute→Repair state
machine of the correction loop (`app/sql_executor.py` is absent). `n` is
the current attempt number, `remaining` the number of repairs left before
`Done(exhausted)` (the Repair stage exhausts once the incremented attempt
number would exceed `maxRetries`, so the entry point passes
`maxRetries - 1`). The generator oracle sees the full attempt history;
the executor oracle runs one validated statement. Returns the final
result, the attempt history, and the list of statements actually handed
to the execution stage. -/
def runLoop (gen : List SqlAttempt → String) (exec : String → ExecResult) :
    Nat → Nat → List SqlAttempt → ExecResult × List SqlAttempt × List String
  | remaining, n, history =>
    match validate (gen history) with
    | some vErr =>
      match remaining with
      | 0 =>
        (ExecResult.error vErr, history ++ [⟨n, gen history, some vErr, none⟩], [])
      | r + 1 =>
        runLoop gen exec r (n + 1) (history ++ [⟨n, gen history, some vErr, none⟩])
    | none =>
      match exec (gen history) with
      | ExecResult.ok cols rows =>
        (ExecResult.ok cols rows, history ++ [⟨n, gen history, none, none⟩],
         [gen history])
      | ExecResult.error e =>
        match remaining with
        | 0 =>
          (ExecResult.error e, history ++ [⟨n, gen history, none, some e⟩],
           [gen history])
        | r + 1 =>
          consExec (gen history)
            (runLoop gen exec r (n + 1) (history ++ [⟨n, gen history, none, some e⟩]))

/-- The default retry budget. -/
def defaultMaxRetries : Nat := 3

/-- Modelled from the spec: `generateAndRun` — the correction loop
entered at attempt number 1 with `maxRetries - 1` repairs remaining. -/
def generateAndRun (gen : List SqlAttempt → String) (exec : String → ExecResult)
    (maxRetries : Nat) : ExecResult × List SqlAttempt × List String :=
  runLoop gen exec (maxRetries - 1) 1 []

/-- A policy chunk of the data model. -/
structure PolicyChunk where
  id : Nat
  sourceDocument : String
  text : String
  order : Nat

/-- Split a string on spaces (kept computable down to the kernel). -/
def splitWordsAux : List Char → List Char → List String
  | [], acc => [String.mk acc.reverse]
  | c :: rest, acc =>
    if c = ' ' then String.mk acc.reverse :: splitWordsAux rest []
    else splitWordsAux rest (c :: acc)

/-- The space-separated words of a string. -/
def splitWords (s : String) : List String :=
  splitWordsAux s.toList []

/-- Modelled from the spec: lexical relevance of a chunk for a topic
(count of topic words occurring in the chunk text). -/
def chunkScore (topic : String) (c : PolicyChunk) : Nat :=
  ((splitWords topic).filter (fun w => w ≠ "" && containsCI c.text w)).length

/-- Insert a chunk into a relevance-ranked list (descending score, ties
broken by chunk order). -/
def insertRanked (topic : String) (c : PolicyChunk) :
    List PolicyChunk → List PolicyChunk
  | [] => [c]
  | d :: rest =>
    if chunkScore topic d < chunkScore topic c ∨
        (chunkScore topic c = chunkScore topic d ∧ c.order ≤ d.order) then
      c :: d :: rest
    else d :: insertRanked topic c rest

/-- Rank a corpus by descending relevance. -/
def rankChunks (topic : String) : List PolicyChunk → List PolicyChunk
  | [] => []
  | c :: rest => insertRanked topic c (rankChunks topic rest)

/-- Modelled from the spec: `retrieve(topic, k)` (`app/docs_loader.py` is
absent) — deterministic, ordered by descending relevance, total. -/
def retrieve (corpus : List PolicyChunk) (topic : String) (k : Nat) :
    List PolicyChunk :=
  (rankChunks topic corpus).take k

/-- Modelled from the spec: docs-answer synthesis via the
best-matching-chunk fallback; degrades to a fixed message on an empty
retrieval. -/
def synthesizeAnswer (chunks : List PolicyChunk) : String :=
  match chunks with
  | [] => "no policy context found"
  | c :: _ => c.text

/-- One trace event: a step tag plus stage-specific detail. -/
structure TraceEvent where
  step : String
  detail : String

/-- The response of `processQuery`: either `{message}` alone or a record
carrying an (optionally annotated) execution result. -/
inductive Response where
  | msgOnly : String → Response
  | withResult : Option String → ExecResult → Response

/-- What one call of `processQuery` returns: the response plus the
ordered trace. -/
structure PipelineOutput where
  response : Response
  trace : List TraceEvent

/-- Modelled from the spec: the Orchestrator (`app/agent.py` is absent).
Routes the query, screens it, then runs exactly one of the three
pipelines (SQL-only, Docs-only, Hybrid) or the no-data-source shortcut;
tabular results pass through `mask` before being returned. The
generator oracle additionally receives the policy chunks used to seed
hybrid generation. -/
def processQuery (query : String) (corpus : List PolicyChunk)
    (sqlAnswer policyAnswer : Option String)
    (gen : List PolicyChunk → List SqlAttempt → String)
    (exec : String → ExecResult) (maxRetries : Nat) : PipelineOutput :=
  let decision := route query sqlAnswer policyAnswer
  let routeEv : TraceEvent := ⟨"route", decision.source ++ ": " ++ decision.rationale⟩
  if !decision.requiresSql && !decision.requiresPolicy then
    ⟨Response.msgOnly "No data source needed for this query.",
     [routeEv, ⟨"answer", "no data source needed"⟩]⟩
  else
    let screen := screenRequest query
    if !screen.allowed then
      ⟨Response.msgOnly (screen.reason.getD "request rejected"),
       [routeEv, ⟨"guardrail", "request rejected"⟩]⟩
    else if decision.requiresSql && decision.requiresPolicy then
      let chunks := retrieve corpus query 3
      let run := generateAndRun (gen chunks) exec maxRetries
      ⟨Response.withResult none (mask run.1),
       [routeEv, ⟨"retrieve", toString chunks.length⟩,
        ⟨"sql-loop", toString run.2.1.length⟩, ⟨"mask", "applied"⟩]⟩
    else if decision.requiresSql then
      let run := generateAndRun (gen []) exec maxRetries
      ⟨Response.withResult none (mask run.1),
       [routeEv, ⟨"sql-loop", toString run.2.1.length⟩, ⟨"mask", "applied"⟩]⟩
    else
      let chunks := retrieve corpus query 3
      ⟨Response.msgOnly (synthesizeAnswer chunks),
       [routeEv, ⟨"retrieve", toString chunks.length⟩]⟩

/-- Encoding of an execution result as the JSON value served to the UI. -/
def encodeExecResult : ExecResult → JsValue
  | ExecResult.ok cols rows =>
    vobj [("columns", varr (cols.map vstr)),
          ("rows", varr (rows.map (fun row => vobj (row.map (fun kv => (kv.1, vstr kv.2))))))]
  | ExecResult.error e => vobj [("error", vstr e)]

/-- Encoding of a response as the JSON value served to the UI. -/
def encodeResponse : Response → JsValue
  | Response.msgOnly m => vobj [("message", vstr m)]
  | Response.withResult m r =>
    vobj ((match m with
           | some msg => [("message", vstr msg)]
           | none => []) ++ [("result", encodeExecResult r)])

end Pipeline

/-!
## Theorems
-/

/-- Any classifier answer that is missing or not a recognized yes/no
token parses to `true` (the conservative default). -/
theorem parseAnswer_of_unparseable (a : Option String)
    (h : Pipeline.answerParseable a = false) : Pipeline.parseAnswer a = true := by
  cases a with
  | none => rfl
  | some s =>
    unfold Pipeline.answerParseable at h
    rw [Bool.or_eq_false_iff] at h
    unfold Pipeline.parseAnswer
    simp only [h.1, h.2]
    simp

/-- Masking one row twice is the same as masking it once. -/
theorem maskRow_idem (row : List (String × String)) :
    Pipeline.maskRow (Pipeline.maskRow row) = Pipeline.maskRow row := by
  unfold Pipeline.maskRow
  rw [List.map_map]
  apply List.map_congr_left
  intro kv _
  by_cases h : Pipeline.isSensitiveColumn kv.1 <;> simp [h]

/-- C5: `mask` is idempotent: masking an already-masked execution result
changes nothing — sensitive columns are already the fixed redaction
token and other columns pass through unchanged. -/
theorem claim5_mask_idempotent (r : Pipeline.ExecResult) :
    Pipeline.mask (Pipeline.mask r) = Pipeline.mask r := by
  cases r with
  | ok cols rows =>
    simp only [Pipeline.mask]
    rw [List.map_map]
    exact congrArg _ (List.map_congr_left (fun row _ => maskRow_idem row))
  | error e => rfl

/-- C8: `renderValue` is a total deterministic function agreeing with its
copy in the explorer variant of the component, returning the em-dash for
`null`/`undefined`, the JSON stringification for arrays and objects, and
`String(value)` otherwise. -/
theorem claim8_renderValue_total (v : JsValue) :
    renderValue v = renderValueExplorer v ∧
    renderValue v =
      (match v with
       | vnull => "—"
       | vundef => "—"
       | varr xs => jsonStringify (varr xs)
       | vobj fs => jsonStringify (vobj fs)
       | w => jsString w) := by
  refine ⟨rfl, ?_⟩
  cases v <;> rfl

/-- C4: a query containing a policy-indicative term is routed with
`requiresPolicy = true` and `source = "rule"`, whatever the classifier
answered. -/
theorem claim4_policy_fastpath (query : String) (sqlAnswer policyAnswer : Option String)
    (t : String) (ht : t ∈ Pipeline.policyTerms)
    (hc : Pipeline.containsCI query t = true) :
    (Pipeline.route query sqlAnswer policyAnswer).requiresPolicy = true ∧
    (Pipeline.route query sqlAnswer policyAnswer).source = "rule" := by
  have hrule : Pipeline.policyTerms.any (fun u => Pipeline.containsCI query u) = true :=
    List.any_eq_true.mpr ⟨t, ht, hc⟩
  unfold Pipeline.route
  simp [hrule]

theorem claim4_policy_fastpath_witness :
    (Pipeline.route "what is the refund policy" (some "no") (some "no")).requiresPolicy = true ∧
    (Pipeline.route "what is the refund policy" (some "no") (some "no")).source = "rule" :=
  claim4_policy_fastpath "what is the refund policy" (some "no") (some "no") "policy"
    (by decide) (by decide)

/-- C6: `route` is total, and when no policy term matches and both
classifier answers are missing or unparseable it degrades to the
conservative default: both dimensions `true`, `source = "model"`, the
fallback rationale recorded — no error is raised. -/
theorem claim6_route_conservative_fallback (query : String)
    (sqlAnswer policyAnswer : Option String)
    (hterm : ∀ t ∈ Pipeline.policyTerms, Pipeline.containsCI query t = false)
    (ha : Pipeline.answerParseable sqlAnswer = false)
    (hb : Pipeline.answerParseable policyAnswer = false) :
    Pipeline.route query sqlAnswer policyAnswer =
      { requiresSql := true, requiresPolicy := true, source := "model",
        rationale := Pipeline.fallbackRationale } := by
  have hrule : Pipeline.policyTerms.any (fun u => Pipeline.containsCI query u) = false := by
    rw [List.any_eq_false]
    intro t ht
    simp [hterm t ht]
  unfold Pipeline.route
  simp [hrule, parseAnswer_of_unparseable _ ha, parseAnswer_of_unparseable _ hb, ha]

theorem claim6_route_conservative_fallback_witness :
    Pipeline.route "hello there" none (some "banana") =
      { requiresSql := true, requiresPolicy := true, source := "model",
        rationale := Pipeline.fallbackRationale } :=
  claim6_route_conservative_fallback "hello there" none (some "banana")
    (by decide) (by decide) (by decide)

/-- The correction loop hands at most `remaining + 1` statements to the
execution stage. -/
theorem runLoop_executed_le (gen : List Pipeline.SqlAttempt → String)
    (exec : String → Pipeline.ExecResult) :
    ∀ remaining n history,
      (Pipeline.runLoop gen exec remaining n history).2.2.length ≤ remaining + 1 := by
  intro remaining
  induction remaining with
  | zero =>
    intro n history
    unfold Pipeline.runLoop
    cases hv : Pipeline.validate (gen history) with
    | some vErr => simp
    | none =>
      cases he : exec (gen history) with
      | ok cols rows => simp
      | error e => simp
  | succ r ih =>
    intro n history
    unfold Pipeline.runLoop
    cases hv : Pipeline.validate (gen history) with
    | some vErr =>
      exact le_trans (ih (n + 1) _) (Nat.le_succ _)
    | none =>
      cases he : exec (gen history) with
      | ok cols rows => simp
      | error e =>
        have h := ih (n + 1) (history ++ [⟨n, gen history, none, some e⟩])
        simp only [Pipeline.consExec, List.length_cons]
        omega

/-- The correction loop either succeeds or surfaces the error of the last
attempt in its history. -/
theorem runLoop_error_is_last (gen : List Pipeline.SqlAttempt → String)
    (exec : String → Pipeline.ExecResult) :
    ∀ remaining n history,
      (∃ cols rows,
        (Pipeline.runLoop gen exec remaining n history).1 = Pipeline.ExecResult.ok cols rows) ∨
      (∃ e att,
        (Pipeline.runLoop gen exec remaining n history).1 = Pipeline.ExecResult.error e ∧
        (Pipeline.runLoop gen exec remaining n history).2.1.getLast? = some att ∧
        (att.validationError = some e ∨ att.executionError = some e)) := by
  intro remaining
  induction remaining with
  | zero =>
    intro n history
    unfold Pipeline.runLoop
    cases hv : Pipeline.validate (gen history) with
    | some vErr =>
      refine Or.inr ⟨vErr, ⟨n, gen history, some vErr, none⟩, rfl, ?_, Or.inl rfl⟩
      simp [List.getLast?_concat]
    | none =>
      cases he : exec (gen history) with
      | ok cols rows => exact Or.inl ⟨cols, rows, rfl⟩
      | error e =>
        refine Or.inr ⟨e, ⟨n, gen history, none, some e⟩, rfl, ?_, Or.inr rfl⟩
        simp [List.getLast?_concat]
  | succ r ih =>
    intro n history
    unfold Pipeline.runLoop
    cases hv : Pipeline.validate (gen history) with
    | some vErr => exact ih (n + 1) _
    | none =>
      cases he : exec (gen history) with
      | ok cols rows => exact Or.inl ⟨cols, rows, rfl⟩
      | error e => exact ih (n + 1) _

/-- Every statement the loop hands to the execution stage passed the
static validation. -/
theorem runLoop_executed_validated (gen : List Pipeline.SqlAttempt → String)
    (exec : String → Pipeline.ExecResult) :
    ∀ remaining n history s,
      s ∈ (Pipeline.runLoop gen exec remaining n history).2.2 →
      Pipeline.validate s = none := by
  intro remaining
  induction remaining with
  | zero =>
    intro n history s hs
    unfold Pipeline.runLoop at hs
    revert hs
    cases hv : Pipeline.validate (gen history) with
    | some vErr => simp
    | none =>
      cases he : exec (gen history) with
      | ok cols rows =>
        intro hs
        simp at hs
        subst hs
        exact hv
      | error e =>
        intro hs
        simp at hs
        subst hs
        exact hv
  | succ r ih =>
    intro n history s hs
    unfold Pipeline.runLoop at hs
    revert hs
    cases hv : Pipeline.validate (gen history) with
    | some vErr => exact ih (n + 1) _ s
    | none =>
      cases he : exec (gen history) with
      | ok cols rows =>
        intro hs
        simp at hs
        subst hs
        exact hv
      | error e =>
        intro hs
        simp only [Pipeline.consExec, List.mem_cons] at hs
        rcases hs with hs | hs
        · subst hs; exact hv
        · exact ih (n + 1) _ s hs

/-- C2: the correction loop hands at most `maxRetries + 1` statements to
the execution stage, and it either succeeds or returns a structured
error value carrying the error of the last attempt — never an unhandled
failure. -/
theorem claim2_retry_budget (gen : List Pipeline.SqlAttempt → String)
    (exec : String → Pipeline.ExecResult) (maxRetries : Nat) :
    (Pipeline.generateAndRun gen exec maxRetries).2.2.length ≤ maxRetries + 1 ∧
    ((∃ cols rows,
        (Pipeline.generateAndRun gen exec maxRetries).1 = Pipeline.ExecResult.ok cols rows) ∨
     (∃ e att,
        (Pipeline.generateAndRun gen exec maxRetries).1 = Pipeline.ExecResult.error e ∧
        (Pipeline.generateAndRun gen exec maxRetries).2.1.getLast? = some att ∧
        (att.validationError = some e ∨ att.executionError = some e))) := by
  constructor
  · exact le_trans (runLoop_executed_le gen exec (maxRetries - 1) 1 []) (by omega)
  · exact runLoop_error_is_last gen exec (maxRetries - 1) 1 []

/-- C3: any candidate statement containing a write keyword or a statement
separator is rejected by validation, and no such statement is ever
handed to the execution stage by the loop. -/
theorem claim3_write_statements_rejected (gen : List Pipeline.SqlAttempt → String)
    (exec : String → Pipeline.ExecResult) (maxRetries : Nat) (s : String)
    (h : (["INSERT", "UPDATE", "DELETE", "DROP"].any
            (fun k => Pipeline.containsCI s k)
          || Pipeline.containsSub s ";") = true) :
    (Pipeline.validate s).isSome = true ∧
    s ∉ (Pipeline.generateAndRun gen exec maxRetries).2.2 := by
  have hval : (Pipeline.validate s).isSome = true := by
    rw [Bool.or_eq_true] at h
    unfold Pipeline.validate
    rcases h with h | h
    · rw [List.any_eq_true] at h
      obtain ⟨k, hk, hck⟩ := h
      have hkw : k ∈ Pipeline.writeKeywords := by
        have hsub : ∀ u ∈ ["INSERT", "UPDATE", "DELETE", "DROP"],
            u ∈ Pipeline.writeKeywords := by decide
        exact hsub k hk
      have hany : Pipeline.writeKeywords.any (fun k => Pipeline.containsCI s k) = true :=
        List.any_eq_true.mpr ⟨k, hkw, hck⟩
      simp [hany]
    · by_cases hw : Pipeline.writeKeywords.any (fun k => Pipeline.containsCI s k) = true
      · simp [hw]
      · simp only [Bool.not_eq_true] at hw
        simp [hw, h]
  refine ⟨hval, fun hmem => ?_⟩
  have := runLoop_executed_validated gen exec (maxRetries - 1) 1 [] s hmem
  rw [this] at hval
  simp at hval

theorem claim3_write_statements_rejected_witness :
    (Pipeline.validate "DROP TABLE customers").isSome = true ∧
    "DROP TABLE customers" ∉
      (Pipeline.generateAndRun (fun _ => "DROP TABLE customers")
        (fun _ => Pipeline.ExecResult.ok [] []) 3).2.2 :=
  claim3_write_statements_rejected (fun _ => "DROP TABLE customers")
    (fun _ => Pipeline.ExecResult.ok [] []) 3 "DROP TABLE customers" (by decide)

/-- C1: whenever the orchestrator returns a tabular result, that result
is in the image of `mask` — no pipeline variant returns a result that
bypassed the guardrail's mask stage (message-only responses carry no
result at all). -/
theorem claim1_results_pass_mask (query : String) (corpus : List Pipeline.PolicyChunk)
    (sqlAnswer policyAnswer : Option String)
    (gen : List Pipeline.PolicyChunk → List Pipeline.SqlAttempt → String)
    (exec : String → Pipeline.ExecResult) (maxRetries : Nat)
    (m : Option String) (r : Pipeline.ExecResult)
    (h : (Pipeline.processQuery query corpus sqlAnswer policyAnswer gen exec maxRetries).response
        = Pipeline.Response.withResult m r) :
    ∃ source, r = Pipeline.mask source := by
  simp only [Pipeline.processQuery] at h
  split at h
  · exact Pipeline.Response.noConfusion h
  · split at h
    · exact Pipeline.Response.noConfusion h
    · split at h
      · exact ⟨_, (Pipeline.Response.withResult.inj h).2.symm⟩
      · split at h
        · exact ⟨_, (Pipeline.Response.withResult.inj h).2.symm⟩
        · exact Pipeline.Response.noConfusion h

theorem claim1_results_pass_mask_witness :
    ∃ source, Pipeline.ExecResult.ok ["name"] [[("name", "Ada")]] = Pipeline.mask source :=
  claim1_results_pass_mask "list the customers" [] (some "yes") (some "no")
    (fun _ _ => "SELECT name FROM customers")
    (fun _ => Pipeline.ExecResult.ok ["name"] [[("name", "Ada")]]) 3 none
    (Pipeline.ExecResult.ok ["name"] [[("name", "Ada")]]) rfl

/-- Mapping with `mapOrThrow` never throws when the callback succeeds pointwise. -/
theorem mapOrThrow_eq_map {α β : Type} (f : α → Option β) (g : α → β) (l : List α)
    (h : ∀ a ∈ l, f a = some (g a)) :
    mapOrThrow f l = some (l.map g) := by
  induction l with
  | nil => rfl
  | cons a rest ih =>
    unfold mapOrThrow
    rw [h a (List.mem_cons_self a rest),
      ih (fun b hb => h b (List.mem_cons_of_mem a hb))]
    rfl

/-- Evaluating `ResultTable` on a well-formed result object with a non-empty rows
array: a table whose header is the columns array and whose cells read
`row[col]` in column order. -/
theorem resultTable_wellformed (cols : List JsValue)
    (rows : List (List (String × JsValue))) (hne : rows ≠ []) :
    ResultTable (vobj [("columns", varr cols), ("rows", varr (rows.map vobj))]) =
      some (TableRender.table cols (rows.map (fun fs =>
        cols.map (fun c => jsString ((lookupField fs (jsString c)).getD vundef))))) := by
  cases rows with
  | nil => exact absurd rfl hne
  | cons fs0 rest =>
    show (mapOrThrow (fun row => mapOrThrow (fun c => renderCell row c) cols)
        ((fs0 :: rest).map vobj)).map (fun body => TableRender.table cols body) = _
    rw [mapOrThrow_eq_map _
      (fun a => cols.map (fun c => jsString ((jsIndex a (jsString c)).getD vundef))) _ ?hpt]
    case hpt =>
      intro a ha
      obtain ⟨fs, hfs, rfl⟩ := List.mem_map.mp ha
      exact mapOrThrow_eq_map _ _ _ (fun c hc => rfl)
    rw [List.map_map]
    rfl

/-- Every encoded successful execution result renders as a table or the
placeholder, never a thrown error. -/
theorem resultTable_encoded_ok (cols : List String)
    (rows : List (List (String × String))) :
    ∃ t, ResultTable (Pipeline.encodeExecResult (Pipeline.ExecResult.ok cols rows)) = some t := by
  cases rows with
  | nil => exact ⟨TableRender.placeholder, rfl⟩
  | cons row rest =>
    have hX : Pipeline.encodeExecResult (Pipeline.ExecResult.ok cols (row :: rest)) =
        vobj [("columns", varr (cols.map vstr)),
              ("rows", varr (((row :: rest).map
                (fun r0 => r0.map (fun kv => (kv.1, vstr kv.2)))).map vobj))] := by
      simp only [Pipeline.encodeExecResult, List.map_map]
      rfl
    rw [hX]
    exact ⟨_, resultTable_wellformed (cols.map vstr)
      ((row :: rest).map (fun r0 => r0.map (fun kv => (kv.1, vstr kv.2)))) (by simp)⟩

/-- Every response the backend can produce renders without a thrown
error in the UI's response panel. -/
theorem encodeResponse_renders (resp : Pipeline.Response) :
    ∃ rendered, renderResponse (Pipeline.encodeResponse resp) = some rendered := by
  cases resp with
  | msgOnly m => exact ⟨RenderedResponse.shown (some (vstr m)) none, rfl⟩
  | withResult m r =>
    cases m with
    | none =>
      cases r with
      | error e =>
        exact ⟨RenderedResponse.shown none (some (Sum.inl (vstr e))), rfl⟩
      | ok cols rows =>
        obtain ⟨t, ht⟩ := resultTable_encoded_ok cols rows
        refine ⟨RenderedResponse.shown none (some (Sum.inr t)), ?_⟩
        show (match ResultTable (Pipeline.encodeExecResult (Pipeline.ExecResult.ok cols rows)) with
              | none => none
              | some t => some (RenderedResponse.shown none (some (Sum.inr t)))) = _
        rw [ht]
    | some msg =>
      cases r with
      | error e =>
        exact ⟨RenderedResponse.shown (some (vstr msg)) (some (Sum.inl (vstr e))), rfl⟩
      | ok cols rows =>
        obtain ⟨t, ht⟩ := resultTable_encoded_ok cols rows
        refine ⟨RenderedResponse.shown (some (vstr msg)) (some (Sum.inr t)), ?_⟩
        show (match ResultTable (Pipeline.encodeExecResult (Pipeline.ExecResult.ok cols rows)) with
              | none => none
              | some t => some (RenderedResponse.shown (some (vstr msg)) (some (Sum.inr t)))) = _
        rw [ht]

/-- C7: every orchestrator output is `{message}` alone or carries a
`result` that is columns/rows or an error, and the UI's
response-rendering block consumes every such shape without throwing. -/
theorem claim7_processQuery_shape_ui (query : String) (corpus : List Pipeline.PolicyChunk)
    (sqlAnswer policyAnswer : Option String)
    (gen : List Pipeline.PolicyChunk → List Pipeline.SqlAttempt → String)
    (exec : String → Pipeline.ExecResult) (maxRetries : Nat) :
    ((∃ msg, (Pipeline.processQuery query corpus sqlAnswer policyAnswer gen exec
        maxRetries).response = Pipeline.Response.msgOnly msg) ∨
     (∃ m r, (Pipeline.processQuery query corpus sqlAnswer policyAnswer gen exec
        maxRetries).response = Pipeline.Response.withResult m r)) ∧
    (∃ rendered, renderResponse (Pipeline.encodeResponse
        (Pipeline.processQuery query corpus sqlAnswer policyAnswer gen exec
          maxRetries).response) = some rendered) := by
  constructor
  · cases h : (Pipeline.processQuery query corpus sqlAnswer policyAnswer gen exec
        maxRetries).response with
    | msgOnly m => exact Or.inl ⟨m, rfl⟩
    | withResult m r => exact Or.inr ⟨m, r, rfl⟩
  · exact encodeResponse_renders _

/-- C9: `ResultTable` renders the fixed placeholder whenever the rows
field is absent (`undefined`) or the empty array — regardless of the
columns field, which it never reads in that case — and on a non-empty
rows array it produces exactly one cell `String(row[col])` per row and
per column name, in the order of `result.columns`. -/
theorem claim9_resulttable_guard :
    (∀ result : JsValue,
        (jsIndex result "rows" = some vundef ∨ jsIndex result "rows" = some (varr [])) →
        ResultTable result = some TableRender.placeholder) ∧
    (∀ (cols : List JsValue) (rows : List (List (String × JsValue))), rows ≠ [] →
        ResultTable (vobj [("columns", varr cols), ("rows", varr (rows.map vobj))]) =
          some (TableRender.table cols (rows.map (fun fs =>
            cols.map (fun c => jsString ((lookupField fs (jsString c)).getD vundef)))))) := by
  constructor
  · intro result h
    unfold ResultTable
    rcases h with h | h <;> rw [h] <;> rfl
  · exact fun cols rows hne => resultTable_wellformed cols rows hne

theorem claim9_resulttable_guard_witness :
    ResultTable (vobj [("columns", varr [vstr "a"])]) = some TableRender.placeholder ∧
    ResultTable (vobj [("columns", varr [vstr "name"]),
        ("rows", varr [vobj [("name", vstr "Ada")]])]) =
      some (TableRender.table [vstr "name"] [["Ada"]]) := by
  constructor
  · exact claim9_resulttable_guard.1 (vobj [("columns", varr [vstr "a"])]) (Or.inl rfl)
  · exact claim9_resulttable_guard.2 [vstr "name"] [[("name", vstr "Ada")]] (by simp)

/-- Dropping while a predicate holds of every element drops everything. -/
theorem dropWhile_eq_nil_of_all {α : Type} (p : α → Bool) (l : List α)
    (h : ∀ c ∈ l, p c = true) : l.dropWhile p = [] := by
  induction l with
  | nil => rfl
  | cons a rest ih =>
    rw [List.dropWhile_cons, if_pos (h a (List.mem_cons_self a rest))]
    exact ih (fun c hc => h c (List.mem_cons_of_mem a hc))

/-- A string of whitespace characters trims to the empty string. -/
theorem jsTrim_eq_empty_of_ws (s : String)
    (h : ∀ c ∈ s.toList, isJsWhitespace c = true) : jsTrim s = "" := by
  unfold jsTrim
  rw [dropWhile_eq_nil_of_all _ _ h]
  rfl

/-- C10: `runQuery` on an empty or all-whitespace query issues no network
request and leaves the response, trace, error and loading state
untouched; on a non-trivial query its behavior is independent of the
prior state (it clears it) and it issues the POST carrying the query. -/
theorem claim10_runquery_gate :
    (∀ (q : String) (st : AppState) (f : FetchOutcome),
        (∀ c ∈ q.toList, isJsWhitespace c = true) →
        runQuery q st f = (st, none)) ∧
    (∀ (q : String) (st st2 : AppState) (f : FetchOutcome), jsTrim q ≠ "" →
        runQuery q st f = runQuery q st2 f ∧ (runQuery q st f).2 = some q) := by
  constructor
  · intro q st f h
    unfold runQuery
    rw [if_pos (jsTrim_eq_empty_of_ws q h)]
  · intro q st st2 f h
    unfold runQuery
    rw [if_neg h, if_neg h]
    exact ⟨rfl, rfl⟩

theorem claim10_runquery_gate_witness :
    runQuery "   " ⟨vstr "old", varr [vstr "ev"], "old error", true⟩
        (FetchOutcome.failure "net down") =
      (⟨vstr "old", varr [vstr "ev"], "old error", true⟩, none) ∧
    (runQuery "hi" ⟨vnull, varr [], "", false⟩ (FetchOutcome.failure "net down")).2 =
      some "hi" := by
  constructor
  · exact claim10_runquery_gate.1 "   " _ _ (by decide)
  · exact (claim10_runquery_gate.2 "hi" ⟨vnull, varr [], "", false⟩
      ⟨vnull, varr [], "", false⟩ _ (by decide)).2
